import Mathlib

/-!
Shallow embedding of the ShelfTrack bookstore catalogue engine
(`src/shelf_track.py`) and proofs of the spec's testable properties.

The SQLite record store is modelled as two in-memory row lists (`book`,
`author`).  Each mutating statement of the source is a pure function on
that state; a store call that may fail is given its success outcome as an
explicit boolean parameter (the source's `execute_sqlite_query` returns a
boolean and performs no mutation on failure, since each statement runs in
its own transaction).  Interactive inputs (the y/n confirmations, chosen
ids, strings) are explicit parameters: the UI layer only ever hands the
core already-validated values, which appear here as hypotheses.

The fuzzy Similarity Matcher (`thefuzz.process.extract`) is an external
collaborator, not code of this repository; it is modelled from the spec's
contract for it: score each candidate string against the query with an
abstract scoring function (a parameter `score`) and return the candidates
ranked by descending score.
-/

/-- A row of the `book` table: `(id, title, authorID, qty)`. -/
structure Book where
  id : Int
  title : String
  authorID : Int
  qty : Int
  deriving DecidableEq, Repr

/-- A row of the `author` table: `(id, name, country)`. -/
structure Author where
  id : Int
  name : String
  country : String
  deriving DecidableEq, Repr

/-- The record store: the two tables, in row order. -/
structure DB where
  books : List Book
  authors : List Author
  deriving DecidableEq, Repr

/-- The initial `book` rows inserted by `init_book_database`. -/
def initial_books : List Book :=
  [⟨3001, "A Tale of Two Cities", 1290, 30⟩,
   ⟨3002, "Harry Potter and the Philosopher's Stone", 8937, 40⟩,
   ⟨3003, "TheLion, the Witch and the Wardrobe", 2356, 25⟩,
   ⟨3004, "The Lord of the Rings", 6380, 37⟩,
   ⟨3005, "Alice's Adventures in Wonderland", 5620, 12⟩]

/-- The initial `author` rows inserted by `init_author_database`. -/
def initial_authors : List Author :=
  [⟨1290, "Charles Dickens", "England"⟩,
   ⟨8937, "J.K. Rowling", "England"⟩,
   ⟨2356, "C.S. Lewis", "Ireland"⟩,
   ⟨6380, "J.R.R Tolkien", "South Africa"⟩,
   ⟨5620, "Lewis Carroll", "England"⟩]

/-- The seeded database created on first startup. -/
def initialDB : DB := ⟨initial_books, initial_authors⟩

/-- `SELECT * FROM book WHERE id = ?` / `... author ...` used by
`check_id_exists`: whether the given id is a key of the given table. -/
def check_id_exists (db : DB) (table : Bool) (id : Int) : Bool :=
  if table then (db.books.filter (fun b => b.id == id)) ≠ []
  else (db.authors.filter (fun a => a.id == id)) ≠ []

/-- `SELECT id FROM book WHERE authorID = ?` followed by the length test
`len(books_by_author) < 2` of `update_creates_orphan`: true when fewer
than two `book` rows reference the author.  Pure query, no mutation. -/
def update_creates_orphan (db : DB) (author_id : Int) : Bool :=
  (db.books.filter (fun b => b.authorID == author_id)).length < 2

/-- `UPDATE book SET authorID = ? WHERE id = ?`. -/
def updateBookAuthor (db : DB) (new_id book_id : Int) : DB :=
  { db with books := db.books.map fun b => if b.id == book_id then { b with authorID := new_id } else b }

/-- `UPDATE book SET qty = ? WHERE id = ?`. -/
def updateBookQty (db : DB) (new_qty book_id : Int) : DB :=
  { db with books := db.books.map fun b => if b.id == book_id then { b with qty := new_qty } else b }

/-- `DELETE FROM book WHERE id = ?`. -/
def deleteBookRow (db : DB) (book_id : Int) : DB :=
  { db with books := db.books.filter (fun b => b.id != book_id) }

/-- `DELETE FROM author WHERE id = ?`. -/
def deleteAuthorRow (db : DB) (author_id : Int) : DB :=
  { db with authors := db.authors.filter (fun a => a.id != author_id) }

/-- `INSERT INTO book (id, title, authorID, qty) VALUES (?,?,?,?)`. -/
def insertBook (db : DB) (b : Book) : DB :=
  { db with books := db.books ++ [b] }

/-- `INSERT INTO author (id, name, country) VALUES (?,?,?)`. -/
def insertAuthor (db : DB) (a : Author) : DB :=
  { db with authors := db.authors ++ [a] }

/-- Invariant I1: every `Book.authorId` references an existing `Author.id`. -/
def I1 (db : DB) : Prop :=
  ∀ b ∈ db.books, ∃ a ∈ db.authors, a.id = b.authorID

instance (db : DB) : Decidable (I1 db) :=
  inferInstanceAs (Decidable (∀ b ∈ db.books, ∃ a ∈ db.authors, a.id = b.authorID))

/-- Invariant I2: every `Author` row is referenced by at least one `Book` row. -/
def I2 (db : DB) : Prop :=
  ∀ a ∈ db.authors, ∃ b ∈ db.books, b.authorID = a.id

instance (db : DB) : Decidable (I2 db) :=
  inferInstanceAs (Decidable (∀ a ∈ db.authors, ∃ b ∈ db.books, b.authorID = a.id))

/-- Well-formedness of the store that SQLite's `PRIMARY KEY` constraint
guarantees: ids are unique within each table. -/
def WF (db : DB) : Prop :=
  (db.books.map Book.id).Nodup ∧ (db.authors.map Author.id).Nodup

instance (db : DB) : Decidable (WF db) :=
  inferInstanceAs (Decidable ((db.books.map Book.id).Nodup ∧ (db.authors.map Author.id).Nodup))

/-- One scored candidate of the Similarity Matcher: the candidate string
paired with its 0-100 similarity score against the query. -/
abbrev Scored := String × Nat

/-- Insert one scored candidate into a list already ranked by descending
score. -/
def insertByScore (x : Scored) : List Scored → List Scored
  | [] => [x]
  | y :: ys => if y.2 ≤ x.2 then x :: y :: ys else y :: insertByScore x ys

/-- Rank scored candidates by descending score (insertion sort). -/
def rankCandidates : List Scored → List Scored
  | [] => []
  | x :: xs => insertByScore x (rankCandidates xs)

/-- The external Similarity Matcher (`thefuzz.process.extract`), which is
not code of this repository, modelled by the contract the spec states for
it: score each candidate against the query with the abstract scoring
function `score` and return the `(candidate, score)` pairs ranked by
descending score. -/
def fuzzy_extract (score : String → String → Nat) (query : String)
    (candidates : List String) : List Scored :=
  rankCandidates (candidates.map fun c => (c, score query c))

/-- One row of the join used by `retrieve_similar_titles`:
`SELECT book.title, author.name, author.country, author.id, book.id, book.qty
FROM book INNER JOIN author ON book.authorID = author.id`. -/
structure JoinedRow where
  title : String
  name : String
  country : String
  author_id : Int
  book_id : Int
  qty : Int
  deriving DecidableEq, Repr

/-- The book-author inner join fetched at the top of
`retrieve_similar_titles`. -/
def book_join (db : DB) : List JoinedRow :=
  db.books.flatMap fun b =>
    (db.authors.filter fun a => a.id == b.authorID).map fun a =>
      ⟨b.title, a.name, a.country, a.id, b.id, b.qty⟩

/-- `retrieve_similar_titles`: drop rows whose title equals
`excluded_title`, score the remaining titles against `title`, and return
the joined rows of every scored title with score at least 90, in the
Matcher's descending-score order.  Pure query, no mutation.  The source's
default for `excluded_title` is the empty string. -/
def retrieve_similar_titles (score : String → String → Nat) (db : DB)
    (title excluded_title : String) : List JoinedRow :=
  let book_data := book_join db
  let book_titles := ((book_data.filter fun book => book.title != excluded_title).map JoinedRow.title)
  let title_similarity_scores := fuzzy_extract score title book_titles
  title_similarity_scores.flatMap fun score_tuple =>
    if 90 ≤ score_tuple.2 then book_data.filter fun book => book.title == score_tuple.1 else []

/-- `retrieve_similar_authors`: score every author name against
`new_author_name` and return the author rows of every name scoring at
least 75, in the Matcher's descending-score order.  Pure query. -/
def retrieve_similar_authors (score : String → String → Nat) (db : DB)
    (new_author_name : String) : List Author :=
  let author_data := db.authors
  let author_names := author_data.map Author.name
  let author_similarity_scores := fuzzy_extract score new_author_name author_names
  author_similarity_scores.flatMap fun score_tuple =>
    if 75 ≤ score_tuple.2 then author_data.filter fun a => a.name == score_tuple.1 else []

/-- Outcome of a catalogue workflow, keyed to the distinct user-visible
messages the source prints. -/
inductive CatalogOutcome where
  /-- The joined fetch of the target book returned no row (the source
  would crash on the empty result; never reached for validated ids). -/
  | fetchFailed
  /-- The user declined a confirmation: the whole operation is cancelled
  with no mutation. -/
  | aborted
  /-- `add_author` signalled failure (`None`), so the compound operation
  stops before its book mutation. -/
  | addAuthorFailed
  /-- The primary store mutation failed ("please contact system
  Administrator" / "Error ... to database"). -/
  | storeError
  /-- The primary mutation succeeded with no orphan cascade involved. -/
  | success
  /-- The primary mutation succeeded and the orphaned author row was
  deleted. -/
  | successOrphanRemoved
  /-- The primary mutation succeeded but the orphan-author delete failed:
  the consistency warning "Removal of Orphan entry unsuccessful" /
  "orphan Author entry created. Please contact system Admin". -/
  | orphanRemovalFailed
  deriving DecidableEq, Repr

/-- Result of a cascade workflow: the new store state, the reported
outcome, and whether the `DELETE FROM author` statement was attempted. -/
structure OpResult where
  db : DB
  outcome : CatalogOutcome
  authorDeleteAttempted : Bool
  deriving DecidableEq, Repr

/-- The joined single-row fetch at the top of `update_book`,
`delete_book` and `search_by_id`: the book with the given id and the
author row its `authorID` references. -/
def fetch_book_join (db : DB) (book_id : Int) : Option (Book × Author) :=
  (db.books.find? (fun b => b.id == book_id)).bind fun b =>
    (db.authors.find? (fun a => a.id == b.authorID)).map fun a => (b, a)

/-- `add_author`: if authors with similar names exist and the user asks
to reuse one, return the id of the chosen existing author row without
mutating; otherwise insert a new author row (the UI pre-validates
`new_author_id` as fresh) and return its id, or `none` when the insert
fails. -/
def add_author (score : String → String → Nat) (db : DB)
    (new_author_name : String) (use_existing : Bool)
    (target_author_index : Nat) (new_author_country : String)
    (new_author_id : Int) (author_created : Bool) : DB × Option Int :=
  let similar_authors := retrieve_similar_authors score db new_author_name
  if similar_authors ≠ [] ∧ use_existing then
    (db, some (similar_authors.getD target_author_index ⟨0, "", ""⟩).id)
  else if author_created then
    (insertAuthor db ⟨new_author_id, new_author_name, new_author_country⟩, some new_author_id)
  else (db, none)

/-- `add_book`: warn about similar titles and optionally abort, resolve
an author via `add_author` (aborting on its failure), then insert the
book row. -/
def add_book (score : String → String → Nat) (db : DB) (new_title : String)
    (continue_adding : Bool) (new_book_id : Int) (author_name : String)
    (use_existing : Bool) (author_index : Nat) (author_country : String)
    (author_id_input : Int) (new_book_quantity : Int)
    (author_created book_added : Bool) : DB × CatalogOutcome :=
  let similar_titles := retrieve_similar_titles score db new_title ""
  if similar_titles ≠ [] ∧ ¬continue_adding then (db, .aborted)
  else
    match add_author score db author_name use_existing author_index author_country author_id_input author_created with
    | (db1, none) => (db1, .addAuthorFailed)
    | (db1, some author_id) =>
      if book_added then (insertBook db1 ⟨new_book_id, new_title, author_id, new_book_quantity⟩, .success)
      else (db1, .storeError)

/-- Case 1 of `update_author_id` (assign to an existing author): compute
the orphan check on the current author, confirm with the user when it is
true, reassign the book row, and only on reassignment success with a true
orphan check attempt the cascade delete of the old author row. -/
def update_author_id_existing (db : DB) (book_id current_auth_id new_id : Int)
    (continue_editing : Bool) (book_edited orphan_removed : Bool) : OpResult :=
  let orphan := update_creates_orphan db current_auth_id
  if orphan ∧ ¬continue_editing then ⟨db, .aborted, false⟩
  else if book_edited then
    let db1 := updateBookAuthor db new_id book_id
    if orphan then
      if orphan_removed then ⟨deleteAuthorRow db1 current_auth_id, .successOrphanRemoved, true⟩
      else ⟨db1, .orphanRemovalFailed, true⟩
    else ⟨db1, .success, false⟩
  else ⟨db, .storeError, false⟩

/-- Case 2 of `update_author_id` (assign to a new author): orphan check
and confirmation first, then author resolution via `add_author` (aborting
on failure), then the reassignment and conditional cascade delete. -/
def update_author_id_new (score : String → String → Nat) (db : DB)
    (book_id current_auth_id : Int) (continue_editing : Bool)
    (new_author_name : String) (use_existing : Bool) (author_index : Nat)
    (new_author_country : String) (new_author_id : Int)
    (author_created book_edited orphan_removed : Bool) : OpResult :=
  let orphan := update_creates_orphan db current_auth_id
  if orphan ∧ ¬continue_editing then ⟨db, .aborted, false⟩
  else
    match add_author score db new_author_name use_existing author_index new_author_country new_author_id author_created with
    | (db1, none) => ⟨db1, .addAuthorFailed, false⟩
    | (db1, some new_id) =>
      if book_edited then
        let db2 := updateBookAuthor db1 new_id book_id
        if orphan then
          if orphan_removed then ⟨deleteAuthorRow db2 current_auth_id, .successOrphanRemoved, true⟩
          else ⟨db2, .orphanRemovalFailed, true⟩
        else ⟨db2, .success, false⟩
      else ⟨db1, .storeError, false⟩

/-- `delete_book`: fetch and display the target, confirm, run the orphan
check on the book's author, confirm the cascade when it is true, delete
the book row, and only on delete success with a true orphan check attempt
the cascade delete of the author row. -/
def delete_book (db : DB) (target_id : Int) (confirm_delete continue_deleting : Bool)
    (delete_successful orphan_deleted : Bool) : OpResult :=
  match fetch_book_join db target_id with
  | none => ⟨db, .fetchFailed, false⟩
  | some (b, a) =>
    if ¬confirm_delete then ⟨db, .aborted, false⟩
    else
      let orphan := update_creates_orphan db a.id
      if orphan ∧ ¬continue_deleting then ⟨db, .aborted, false⟩
      else if delete_successful then
        let db1 := deleteBookRow db b.id
        if orphan then
          if orphan_deleted then ⟨deleteAuthorRow db1 a.id, .successOrphanRemoved, true⟩
          else ⟨db1, .orphanRemovalFailed, true⟩
        else ⟨db1, .success, false⟩
      else ⟨db, .storeError, false⟩

/-- Result value of `update_quantity`: the new quantity on store success,
Python's `False` on failure. -/
inductive QuantResult where
  | val (n : Int)
  | storeFailed
  deriving DecidableEq, Repr

/-- `update_quantity`: update the book row's `qty` and return the new
quantity, or return `False` when the store update fails. -/
def update_quantity (db : DB) (book_id new_quant : Int)
    (quant_updated : Bool) : DB × QuantResult :=
  if quant_updated then (updateBookQty db new_quant book_id, .val new_quant)
  else (db, .storeFailed)

/-- Python truthiness of `update_quantity`'s result, as tested by
`if new_quantity:` in `update_book`: an integer is truthy iff nonzero,
`False` is falsy. -/
def pyTruthy : QuantResult → Bool
  | .val n => n != 0
  | .storeFailed => false

/-- The message `update_book` prints for its stock-quantity branch. -/
inductive StockReport where
  /-- "stock updated. New stock: ..." -/
  | updated
  /-- "Error updating ... stock, please contact system admin" -/
  | error
  deriving DecidableEq, Repr

/-- The stock-quantity branch of `update_book` (case 1): call
`update_quantity` and report success iff its result is truthy. -/
def update_book_stock (db : DB) (book_id new_quant : Int)
    (quant_updated : Bool) : DB × StockReport :=
  let r := update_quantity db book_id new_quant quant_updated
  (r.1, if pyTruthy r.2 then .updated else .error)

/-- One completed top-level catalogue operation, with every interactive
input recorded.  Store calls are taken as successful when the operation
is run through `applyOp` (the store-failure branches are analysed through
the workflow functions directly). -/
inductive Op where
  /-- The Add Book workflow. -/
  | addBook (new_title : String) (continue_adding : Bool) (new_book_id : Int)
      (author_name : String) (use_existing : Bool) (author_index : Nat)
      (author_country : String) (author_id : Int) (qty : Int)
  /-- `update_book` case 3 followed by `update_author_id` case 1. -/
  | reassignExisting (book_id new_id : Int) (continue_editing : Bool)
  /-- `update_book` case 3 followed by `update_author_id` case 2. -/
  | reassignNew (book_id : Int) (continue_editing : Bool) (author_name : String)
      (use_existing : Bool) (author_index : Nat) (author_country : String)
      (author_id : Int)
  /-- The Delete Book workflow. -/
  | deleteBook (book_id : Int) (confirm_delete continue_deleting : Bool)
  deriving DecidableEq, Repr

/-- Run one operation against the store with every store call succeeding.
The reassignment operations first perform `update_book`'s joined fetch of
the target book, which supplies `update_author_id`'s `book_id` and
`current_auth_id` arguments. -/
def applyOp (score : String → String → Nat) (db : DB) : Op → DB
  | .addBook t ca bid an ue ai ac aid q =>
    (add_book score db t ca bid an ue ai ac aid q true true).1
  | .reassignExisting bid nid cont =>
    match fetch_book_join db bid with
    | none => db
    | some (b, a) => (update_author_id_existing db b.id a.id nid cont true true).db
  | .reassignNew bid cont an ue ai ac aid =>
    match fetch_book_join db bid with
    | none => db
    | some (b, a) =>
      (update_author_id_new score db b.id a.id cont an ue ai ac aid true true true).db
  | .deleteBook bid cd cdel => (delete_book db bid cd cdel true true).db

/-- The guarantees the UI input helpers establish before an operation's
core logic runs: `get_valid_id` hands over ids that do not yet exist in
the target table (only consulted on the create-new-author path),
`get_valid_option_input` hands over an index into the displayed list, and
`get_existing_id` hands over an id that exists in the target table. -/
def Op.valid (score : String → String → Nat) (db : DB) : Op → Prop
  | .addBook _ _ new_book_id an ue ai _ aid _ =>
    check_id_exists db true new_book_id = false ∧
    (retrieve_similar_authors score db an ≠ [] → ue = true →
      ai < (retrieve_similar_authors score db an).length) ∧
    (retrieve_similar_authors score db an = [] ∨ ue = false →
      check_id_exists db false aid = false)
  | .reassignExisting _ new_id _ => check_id_exists db false new_id = true
  | .reassignNew _ _ an ue ai _ aid =>
    (retrieve_similar_authors score db an ≠ [] → ue = true →
      ai < (retrieve_similar_authors score db an).length) ∧
    (retrieve_similar_authors score db an = [] ∨ ue = false →
      check_id_exists db false aid = false)
  | .deleteBook _ _ _ => True

instance (score : String → String → Nat) (db : DB) (op : Op) :
    Decidable (op.valid score db) := by
  cases op <;> simp only [Op.valid] <;> infer_instance

/-- Run a sequence of operations left to right, all store calls
succeeding. -/
def runOps (score : String → String → Nat) (db : DB) : List Op → DB
  | [] => db
  | op :: rest => runOps score (applyOp score db op) rest

/-- Every operation of the sequence satisfies its UI-validated input
guarantees at the state it runs in. -/
def validSeq (score : String → String → Nat) : DB → List Op → Prop
  | _, [] => True
  | db, op :: rest => op.valid score db ∧ validSeq score (applyOp score db op) rest

def validSeqDec (score : String → String → Nat) :
    (db : DB) → (ops : List Op) → Decidable (validSeq score db ops)
  | _, [] => .isTrue trivial
  | db, op :: rest =>
    @instDecidableAnd _ _ inferInstance (validSeqDec score (applyOp score db op) rest)

instance (score : String → String → Nat) (db : DB) (ops : List Op) :
    Decidable (validSeq score db ops) := validSeqDec score db ops

/-! ### Helper lemmas -/

/-- A list with at most one element has all members equal. -/
theorem eq_of_length_le_one {α : Type} {l : List α} (h : l.length ≤ 1)
    {x y : α} (hx : x ∈ l) (hy : y ∈ l) : x = y := by
  match l, h with
  | [], _ => cases hx
  | [z], _ =>
    rcases List.mem_singleton.mp hx with rfl
    exact (List.mem_singleton.mp hy).symm

/-- A duplicate-free list with at least two elements has a member
different from any given value. -/
theorem exists_mem_ne_of_two_le {α : Type} {l : List α} (hn : l.Nodup)
    (h2 : 2 ≤ l.length) (b : α) : ∃ x ∈ l, x ≠ b := by
  match l, h2 with
  | x :: y :: rest, _ =>
    by_cases hxb : x = b
    · subst hxb
      refine ⟨y, by simp, ?_⟩
      intro hyb
      exact (List.nodup_cons.mp hn).1 (by simp [hyb])
    · exact ⟨x, by simp, hxb⟩

/-- Rows of a table with `Nodup` ids are determined by their id. -/
theorem book_eq_of_id_eq {books : List Book}
    (hn : (books.map Book.id).Nodup) {x y : Book}
    (hx : x ∈ books) (hy : y ∈ books) (h : x.id = y.id) : x = y :=
  List.inj_on_of_nodup_map hn hx hy h

/-- Unpacking the successful joined fetch. -/
theorem fetch_book_join_some {db : DB} {book_id : Int} {b : Book} {a : Author}
    (h : fetch_book_join db book_id = some (b, a)) :
    b ∈ db.books ∧ b.id = book_id ∧ a ∈ db.authors ∧ a.id = b.authorID := by
  unfold fetch_book_join at h
  rcases hf : db.books.find? (fun b => b.id == book_id) with _ | b' <;> rw [hf] at h
  · simp at h
  · simp only [Option.some_bind] at h
    rcases Option.map_eq_some'.mp h with ⟨a', hg, hpair⟩
    have hb : b' = b := congrArg Prod.fst hpair
    have ha : a' = a := congrArg Prod.snd hpair
    subst hb; subst ha
    refine ⟨List.mem_of_find?_eq_some hf, ?_, List.mem_of_find?_eq_some hg, ?_⟩
    · simpa using List.find?_some hf
    · simpa using List.find?_some hg

/-- `check_id_exists` on the `book` table is false iff no row carries the id. -/
theorem check_book_id_exists_false {db : DB} {id : Int}
    (h : check_id_exists db true id = false) : ∀ x ∈ db.books, x.id ≠ id := by
  simp only [check_id_exists] at h
  simpa using h

/-- `check_id_exists` on the `author` table is false iff no row carries the id. -/
theorem check_author_id_exists_false {db : DB} {id : Int}
    (h : check_id_exists db false id = false) : ∀ x ∈ db.authors, x.id ≠ id := by
  simp only [check_id_exists] at h
  simpa using h

/-- `check_id_exists` true on the `author` table yields a row. -/
theorem check_author_id_exists_true {db : DB} {id : Int}
    (h : check_id_exists db false id = true) : ∃ a ∈ db.authors, a.id = id := by
  simp only [check_id_exists] at h
  simp only [Bool.false_eq_true, if_false] at h
  rcases hf : db.authors.filter (fun a => a.id == id) with _ | ⟨a, rest⟩
  · rw [hf] at h; simp at h
  · have ha : a ∈ db.authors.filter (fun a => a.id == id) := by rw [hf]; simp
    rcases List.mem_filter.mp ha with ⟨hmem, hid⟩
    exact ⟨a, hmem, by simpa using hid⟩

/-! ### C3: `update_creates_orphan` (`wouldOrphan`) -/

/-- C3 counterexample: for an author with zero referencing books the
claim says `wouldOrphan` is false/undefined (not true), but
`update_creates_orphan` returns `true` (the source tests
`len(books_by_author) < 2`, and `0 < 2`).  Concretely, author 9999 has no
referencing book rows, yet the check returns `true`. -/
theorem update_creates_orphan_true_on_zero_refs :
    (DB.books ⟨[], [⟨9999, "Ghost", "Nowhere"⟩]⟩).filter
        (fun b => b.authorID == 9999) = [] ∧
    update_creates_orphan ⟨[], [⟨9999, "Ghost", "Nowhere"⟩]⟩ 9999 = true := by
  decide

/-- C3 (amended): `update_creates_orphan` returns true iff the author is
referenced by fewer than two books — true when exactly one book
references it, false when two or more do, and also true (not false) when
zero books reference it.  It is a pure query: it takes the store and
returns a boolean without producing a new store. -/
theorem update_creates_orphan_iff_refs_lt_two (db : DB) (author_id : Int) :
    (update_creates_orphan db author_id = true ↔
      db.books.countP (fun b => b.authorID == author_id) < 2) ∧
    (db.books.countP (fun b => b.authorID == author_id) = 1 →
      update_creates_orphan db author_id = true) ∧
    (2 ≤ db.books.countP (fun b => b.authorID == author_id) →
      update_creates_orphan db author_id = false) ∧
    (db.books.countP (fun b => b.authorID == author_id) = 0 →
      update_creates_orphan db author_id = true) := by
  have h : db.books.countP (fun b => b.authorID == author_id) =
      (db.books.filter (fun b => b.authorID == author_id)).length := by
    simp [List.countP_eq_length_filter]
  refine ⟨?_, ?_, ?_, ?_⟩ <;>
      simp only [update_creates_orphan, h, decide_eq_true_eq, decide_eq_false_iff_not] <;>
    omega

/-- C3 witness: author 1290 is referenced by exactly one seeded book, and
the check reports an orphan would be created. -/
theorem update_creates_orphan_iff_refs_lt_two_witness :
    update_creates_orphan initialDB 1290 = true :=
  (update_creates_orphan_iff_refs_lt_two initialDB 1290).2.1 (by decide)

/-! ### C10: `update_quantity` and the stock branch of `update_book` -/

/-- C10: `update_quantity` returns the new quantity on store success and
`False` on store failure; for the input quantity 0 a successful update
returns a falsy value, so `update_book`'s stock branch reports an error
even though the book row's `qty` field was changed to 0. -/
theorem update_quantity_zero_misreported (db : DB) (book_id new_quant : Int)
    (b : Book) (hb : b ∈ db.books) (hid : b.id = book_id) :
    (update_quantity db book_id new_quant true).2 = .val new_quant ∧
    (update_quantity db book_id new_quant false).2 = .storeFailed ∧
    (update_book_stock db book_id 0 true).2 = .error ∧
    ∃ b' ∈ (update_book_stock db book_id 0 true).1.books,
      b'.id = book_id ∧ b'.qty = 0 := by
  refine ⟨rfl, rfl, rfl, ⟨{ b with qty := 0 }, ?_, by simp [hid], rfl⟩⟩
  show { b with qty := 0 } ∈ (updateBookQty db 0 book_id).books
  have hmem := List.mem_map_of_mem
    (fun x => if x.id == book_id then { x with qty := 0 } else x) hb
  simpa [updateBookQty, hid] using hmem

/-- C10 witness: updating the stock of seeded book 3001 to 0 succeeds in
the store yet is reported as an error. -/
theorem update_quantity_zero_misreported_witness :
    (update_book_stock initialDB 3001 0 true).2 = .error ∧
    ∃ b' ∈ (update_book_stock initialDB 3001 0 true).1.books,
      b'.id = 3001 ∧ b'.qty = 0 :=
  And.intro
    (update_quantity_zero_misreported initialDB 3001 7
      ⟨3001, "A Tale of Two Cities", 1290, 30⟩ (by decide) rfl).2.2.1
    (update_quantity_zero_misreported initialDB 3001 7
      ⟨3001, "A Tale of Two Cities", 1290, 30⟩ (by decide) rfl).2.2.2

/-! ### C5: declining the orphan-cascade confirmation aborts everything -/

/-- C5: in both `update_author_id` paths and in `delete_book`, when the
orphan check is true and the user declines the cascade confirmation, the
whole operation aborts with no mutation to either table, whatever the
store would have answered. -/
theorem decline_aborts_without_mutation :
    (∀ (db : DB) (book_id current_auth_id new_id : Int) (e1 e2 : Bool),
      update_creates_orphan db current_auth_id = true →
      update_author_id_existing db book_id current_auth_id new_id false e1 e2 =
        ⟨db, .aborted, false⟩) ∧
    (∀ (score : String → String → Nat) (db : DB) (book_id current_auth_id : Int)
        (an : String) (ue : Bool) (ai : Nat) (ac : String) (aid : Int) (e0 e1 e2 : Bool),
      update_creates_orphan db current_auth_id = true →
      update_author_id_new score db book_id current_auth_id false an ue ai ac aid e0 e1 e2 =
        ⟨db, .aborted, false⟩) ∧
    (∀ (db : DB) (target_id : Int) (e1 e2 : Bool) (b : Book) (a : Author),
      fetch_book_join db target_id = some (b, a) →
      update_creates_orphan db a.id = true →
      delete_book db target_id true false e1 e2 = ⟨db, .aborted, false⟩) := by
  refine ⟨?_, ?_, ?_⟩
  · intro db book_id current_auth_id new_id e1 e2 horph
    simp [update_author_id_existing, horph]
  · intro score db book_id current_auth_id an ue ai ac aid e0 e1 e2 horph
    simp [update_author_id_new, horph]
  · intro db target_id e1 e2 b a hf horph
    unfold delete_book
    rw [hf]
    simp [horph]

/-- C5 witness: on a one-book store, declining both cascade
confirmations leaves the store untouched. -/
theorem decline_aborts_without_mutation_witness :
    update_author_id_existing ⟨[⟨3001, "T", 1290, 5⟩], [⟨1290, "N", "C"⟩]⟩
        3001 1290 5620 false true true =
      ⟨⟨[⟨3001, "T", 1290, 5⟩], [⟨1290, "N", "C"⟩]⟩, .aborted, false⟩ ∧
    delete_book ⟨[⟨3001, "T", 1290, 5⟩], [⟨1290, "N", "C"⟩]⟩
        3001 true false true true =
      ⟨⟨[⟨3001, "T", 1290, 5⟩], [⟨1290, "N", "C"⟩]⟩, .aborted, false⟩ :=
  And.intro
    (decline_aborts_without_mutation.1 ⟨[⟨3001, "T", 1290, 5⟩], [⟨1290, "N", "C"⟩]⟩
      3001 1290 5620 true true (by decide))
    (decline_aborts_without_mutation.2.2 ⟨[⟨3001, "T", 1290, 5⟩], [⟨1290, "N", "C"⟩]⟩
      3001 true true ⟨3001, "T", 1290, 5⟩ ⟨1290, "N", "C"⟩ (by decide) (by decide))

/-! ### C4: the author delete is attempted only after primary success
with a true pre-computed orphan check -/

/-- C4: in every cascade workflow the `DELETE FROM author` statement is
attempted only if the primary book mutation reported success and the
orphan check computed before the mutation was true; otherwise it is never
attempted. -/
theorem author_delete_attempt_requires_success_and_orphan :
    (∀ (db : DB) (book_id current_auth_id new_id : Int) (cont e1 e2 : Bool),
      (update_author_id_existing db book_id current_auth_id new_id
          cont e1 e2).authorDeleteAttempted = true →
      e1 = true ∧ update_creates_orphan db current_auth_id = true) ∧
    (∀ (score : String → String → Nat) (db : DB) (book_id current_auth_id : Int)
        (cont : Bool) (an : String) (ue : Bool) (ai : Nat) (ac : String) (aid : Int)
        (e0 e1 e2 : Bool),
      (update_author_id_new score db book_id current_auth_id cont an ue ai ac aid
          e0 e1 e2).authorDeleteAttempted = true →
      e1 = true ∧ update_creates_orphan db current_auth_id = true) ∧
    (∀ (db : DB) (target_id : Int) (cd cdel e1 e2 : Bool),
      (delete_book db target_id cd cdel e1 e2).authorDeleteAttempted = true →
      e1 = true ∧ ∃ b a, fetch_book_join db target_id = some (b, a) ∧
        update_creates_orphan db a.id = true) := by
  refine ⟨?_, ?_, ?_⟩
  · intro db book_id current_auth_id new_id cont e1 e2 h
    by_cases ho : update_creates_orphan db current_auth_id = true <;>
      by_cases he1 : e1 = true <;> by_cases hc : cont = true <;>
        by_cases he2 : e2 = true <;>
      first
        | exact ⟨he1, ho⟩
        | simp_all [update_author_id_existing]
  · intro score db book_id current_auth_id cont an ue ai ac aid e0 e1 e2 h
    unfold update_author_id_new at h
    rcases haa : add_author score db an ue ai ac aid e0 with ⟨db1, res⟩
    rw [haa] at h
    rcases res with _ | nid <;>
      by_cases ho : update_creates_orphan db current_auth_id = true <;>
        by_cases he1 : e1 = true <;> by_cases hc : cont = true <;>
          by_cases he2 : e2 = true <;>
        first
          | exact ⟨he1, ho⟩
          | simp_all
  · intro db target_id cd cdel e1 e2 h
    unfold delete_book at h
    rcases hf : fetch_book_join db target_id with _ | ⟨b, a⟩ <;> rw [hf] at h
    · simp at h
    · by_cases ho : update_creates_orphan db a.id = true <;>
        by_cases he1 : e1 = true <;> by_cases hcd : cd = true <;>
          by_cases hcdel : cdel = true <;> by_cases he2 : e2 = true <;>
        first
          | exact ⟨he1, ⟨b, a, hf, ho⟩⟩
          | (simp_all; exact ⟨b, a, ⟨rfl, rfl⟩, ho⟩)
          | simp_all

/-- C4 witness: a run in which the delete is attempted indeed had a
successful primary mutation and a true pre-check. -/
theorem author_delete_attempt_requires_success_and_orphan_witness :
    (true = true ∧ update_creates_orphan
      ⟨[⟨3001, "T", 1290, 5⟩], [⟨1290, "N", "C"⟩, ⟨5620, "M", "D"⟩]⟩ 1290 = true) :=
  author_delete_attempt_requires_success_and_orphan.1
    ⟨[⟨3001, "T", 1290, 5⟩], [⟨1290, "N", "C"⟩, ⟨5620, "M", "D"⟩]⟩
    3001 1290 5620 true true true (by decide)

/-! ### C6: partial failure of the cascade -/

/-- C6: when the primary book mutation succeeds but the cascaded author
delete fails, the book mutation is left in place (not rolled back), the
author table — hence the now-orphaned author row — is untouched, and the
outcome is the dedicated consistency warning, distinct from a plain store
error and from the success outcomes. -/
theorem partial_failure_keeps_mutation_and_warns :
    (∀ (db : DB) (book_id current_auth_id new_id : Int),
      update_creates_orphan db current_auth_id = true →
      update_author_id_existing db book_id current_auth_id new_id true true false =
        ⟨updateBookAuthor db new_id book_id, .orphanRemovalFailed, true⟩ ∧
      (updateBookAuthor db new_id book_id).authors = db.authors) ∧
    (∀ (score : String → String → Nat) (db db1 : DB) (book_id current_auth_id new_id : Int)
        (an : String) (ue : Bool) (ai : Nat) (ac : String) (aid : Int),
      update_creates_orphan db current_auth_id = true →
      add_author score db an ue ai ac aid true = (db1, some new_id) →
      update_author_id_new score db book_id current_auth_id true an ue ai ac aid
          true true false =
        ⟨updateBookAuthor db1 new_id book_id, .orphanRemovalFailed, true⟩ ∧
      (updateBookAuthor db1 new_id book_id).authors = db1.authors) ∧
    (∀ (db : DB) (target_id : Int) (b : Book) (a : Author),
      fetch_book_join db target_id = some (b, a) →
      update_creates_orphan db a.id = true →
      delete_book db target_id true true true false =
        ⟨deleteBookRow db b.id, .orphanRemovalFailed, true⟩ ∧
      (deleteBookRow db b.id).authors = db.authors) ∧
    (CatalogOutcome.orphanRemovalFailed ≠ CatalogOutcome.storeError ∧
      CatalogOutcome.orphanRemovalFailed ≠ CatalogOutcome.success ∧
      CatalogOutcome.orphanRemovalFailed ≠ CatalogOutcome.successOrphanRemoved) := by
  refine ⟨?_, ?_, ?_, by decide, by decide, by decide⟩
  · intro db book_id current_auth_id new_id horph
    refine ⟨?_, rfl⟩
    simp [update_author_id_existing, horph]
  · intro score db db1 book_id current_auth_id new_id an ue ai ac aid horph haa
    refine ⟨?_, rfl⟩
    unfold update_author_id_new
    rw [haa]
    simp [horph]
  · intro db target_id b a hf horph
    refine ⟨?_, rfl⟩
    unfold delete_book
    rw [hf]
    simp [horph]

/-- C6 witness: deleting the only book of author 1290 with a failing
author-delete leaves the book deleted, the author row present, and the
consistency warning reported. -/
theorem partial_failure_keeps_mutation_and_warns_witness :
    delete_book ⟨[⟨3001, "T", 1290, 5⟩], [⟨1290, "N", "C"⟩]⟩ 3001 true true true false =
      ⟨deleteBookRow ⟨[⟨3001, "T", 1290, 5⟩], [⟨1290, "N", "C"⟩]⟩ 3001,
        .orphanRemovalFailed, true⟩ ∧
    (deleteBookRow ⟨[⟨3001, "T", 1290, 5⟩], [⟨1290, "N", "C"⟩]⟩ 3001).authors =
      [⟨1290, "N", "C"⟩] :=
  And.intro
    ((partial_failure_keeps_mutation_and_warns.2.2.1
      ⟨[⟨3001, "T", 1290, 5⟩], [⟨1290, "N", "C"⟩]⟩ 3001
      ⟨3001, "T", 1290, 5⟩ ⟨1290, "N", "C"⟩ (by decide) (by decide)).1)
    rfl

/-! ### C2: referential integrity under author reassignment -/

/-- C2 counterexample: reassigning a book to its *current* author id
(1290, which `get_existing_id` accepts since it exists) when that author
is referenced by only this book makes the orphan cascade delete author
1290 even though the book still references it, violating I1.  The
starting store satisfies I1; the completed, store-successful run does
not. -/
theorem update_author_id_self_reassign_breaks_i1 :
    I1 ⟨[⟨3001, "T", 1290, 5⟩], [⟨1290, "N", "C"⟩]⟩ ∧
    check_id_exists ⟨[⟨3001, "T", 1290, 5⟩], [⟨1290, "N", "C"⟩]⟩ false 1290 = true ∧
    (update_author_id_existing ⟨[⟨3001, "T", 1290, 5⟩], [⟨1290, "N", "C"⟩]⟩
        3001 1290 1290 true true true).outcome = .successOrphanRemoved ∧
    ¬ I1 (update_author_id_existing ⟨[⟨3001, "T", 1290, 5⟩], [⟨1290, "N", "C"⟩]⟩
        3001 1290 1290 true true true).db := by
  decide

/-- C2 (amended): a completed `update_author_id` reassignment to an
existing target author preserves I1 provided the target id differs from
the current author id whenever the orphan cascade will fire (when the
current author is referenced by fewer than two books); the unamended
claim fails exactly on a self-reassignment that triggers the cascade. -/
theorem update_author_id_existing_preserves_i1
    (db : DB) (book_id current_auth_id new_id : Int) (cont e1 e2 : Bool)
    (b0 : Book) (hb0 : b0 ∈ db.books) (hb0id : b0.id = book_id)
    (hb0a : b0.authorID = current_auth_id)
    (hnew : ∃ a ∈ db.authors, a.id = new_id)
    (hI1 : I1 db)
    (hne : new_id ≠ current_auth_id ∨
      update_creates_orphan db current_auth_id = false) :
    I1 (update_author_id_existing db book_id current_auth_id new_id cont e1 e2).db := by
  have hA : I1 (updateBookAuthor db new_id book_id) := by
    intro b' hb'
    simp only [updateBookAuthor, List.mem_map] at hb'
    rcases hb' with ⟨b, hb, rfl⟩
    by_cases hbid : (b.id == book_id) = true
    · rcases hnew with ⟨a', ha', haid⟩
      exact ⟨a', ha', by simp [hbid, haid]⟩
    · rcases hI1 b hb with ⟨a', ha', haid⟩
      exact ⟨a', ha', by simp [hbid, haid]⟩
  have hB : update_creates_orphan db current_auth_id = true →
      new_id ≠ current_auth_id →
      I1 (deleteAuthorRow (updateBookAuthor db new_id book_id) current_auth_id) := by
    intro ho hne2 b' hb'
    simp only [deleteAuthorRow, updateBookAuthor, List.mem_map] at hb'
    rcases hb' with ⟨b, hb, rfl⟩
    by_cases hbid : (b.id == book_id) = true
    · rcases hnew with ⟨a', ha', haid⟩
      refine ⟨a', ?_, by simp [hbid, haid]⟩
      simp only [deleteAuthorRow, updateBookAuthor, List.mem_filter]
      exact ⟨ha', by simp [haid, hne2]⟩
    · rcases hI1 b hb with ⟨a', ha', haid⟩
      have hbnot : b.authorID ≠ current_auth_id := by
        intro heq
        have hmem1 : b ∈ db.books.filter (fun x => x.authorID == current_auth_id) :=
          List.mem_filter.mpr ⟨hb, by simp [heq]⟩
        have hmem0 : b0 ∈ db.books.filter (fun x => x.authorID == current_auth_id) :=
          List.mem_filter.mpr ⟨hb0, by simp [hb0a]⟩
        have hlen : (db.books.filter (fun x => x.authorID == current_auth_id)).length ≤ 1 := by
          simp only [update_creates_orphan, decide_eq_true_eq] at ho
          omega
        have hbb0 : b = b0 := eq_of_length_le_one hlen hmem1 hmem0
        rw [hbb0, hb0id] at hbid
        simp at hbid
      refine ⟨a', ?_, by simp [hbid, haid]⟩
      simp only [deleteAuthorRow, updateBookAuthor, List.mem_filter]
      refine ⟨ha', by simp [haid]; exact hbnot⟩
  rcases e1 with _ | _ <;> rcases e2 with _ | _ <;>
    by_cases ho : update_creates_orphan db current_auth_id = true <;>
      by_cases hc : cont = true <;>
        simp only [update_author_id_existing, ho, hc] <;>
      first
        | exact hI1
        | exact hA
        | exact hB ho (hne.resolve_right (by simp [ho]))

/-- C2 witness: reassigning the only book of author 1290 to the distinct
existing author 5620 keeps I1. -/
theorem update_author_id_existing_preserves_i1_witness :
    I1 (update_author_id_existing
      ⟨[⟨3001, "T", 1290, 5⟩], [⟨1290, "N", "C"⟩, ⟨5620, "M", "D"⟩]⟩
      3001 1290 5620 true true true).db :=
  update_author_id_existing_preserves_i1
    ⟨[⟨3001, "T", 1290, 5⟩], [⟨1290, "N", "C"⟩, ⟨5620, "M", "D"⟩]⟩
    3001 1290 5620 true true true
    ⟨3001, "T", 1290, 5⟩ (by decide) rfl rfl
    ⟨⟨5620, "M", "D"⟩, by decide, rfl⟩ (by decide) (Or.inl (by decide))

/-! ### Matcher lemmas -/

/-- Membership in `insertByScore`. -/
theorem mem_insertByScore {x y : Scored} {l : List Scored} :
    y ∈ insertByScore x l ↔ y = x ∨ y ∈ l := by
  induction l with
  | nil => simp [insertByScore]
  | cons z zs ih =>
    unfold insertByScore
    split
    · simp
    · simp only [List.mem_cons, ih]
      tauto

/-- `rankCandidates` is membership-preserving. -/
theorem mem_rankCandidates {y : Scored} {l : List Scored} :
    y ∈ rankCandidates l ↔ y ∈ l := by
  induction l with
  | nil => simp [rankCandidates]
  | cons z zs ih => simp [rankCandidates, mem_insertByScore, ih]

/-- Members of the Matcher's output are exactly the scored candidates. -/
theorem mem_fuzzy_extract {score : String → String → Nat} {q : String}
    {cands : List String} {st : Scored} :
    st ∈ fuzzy_extract score q cands ↔ ∃ c ∈ cands, st = (c, score q c) := by
  unfold fuzzy_extract
  rw [mem_rankCandidates]
  simp [List.mem_map, eq_comm]

/-! ### C8: exclusion correctness of `retrieve_similar_titles` -/

/-- C8: no row whose title equals the excluded title is ever returned by
`retrieve_similar_titles`; in particular, over a catalogue containing
exactly the title "Dune", querying "Dune" while excluding "Dune" returns
the empty list, for every scoring function. -/
theorem excluded_title_never_in_results :
    (∀ (score : String → String → Nat) (db : DB) (q excl : String) (r : JoinedRow),
      r ∈ retrieve_similar_titles score db q excl → r.title ≠ excl) ∧
    (∀ score : String → String → Nat,
      retrieve_similar_titles score
        ⟨[⟨3001, "Dune", 1290, 5⟩], [⟨1290, "Frank Herbert", "USA"⟩]⟩
        "Dune" "Dune" = []) := by
  constructor
  · intro score db q excl r hr
    simp only [retrieve_similar_titles] at hr
    rcases List.mem_flatMap.mp hr with ⟨st, hst, hrblock⟩
    by_cases h90 : 90 ≤ st.2
    · rw [if_pos h90] at hrblock
      rcases List.mem_filter.mp hrblock with ⟨hrdata, hrtitle⟩
      rcases mem_fuzzy_extract.mp hst with ⟨c, hc, rfl⟩
      rcases List.mem_map.mp hc with ⟨row, hrow, hrowc⟩
      rcases List.mem_filter.mp hrow with ⟨hrowdata, hrowne⟩
      have h1 : r.title = c := by simpa using hrtitle
      have h2 : row.title ≠ excl := by simpa using hrowne
      rw [h1, ← hrowc]
      exact h2
    · rw [if_neg h90] at hrblock
      cases hrblock
  · intro score
    rfl

/-- C8 witness: a non-excluded title is indeed reported as different
from the excluded one. -/
theorem excluded_title_never_in_results_witness :
    (⟨"Dune", "Frank Herbert", "USA", 1290, 3001, 5⟩ : JoinedRow).title ≠ "Sand" :=
  excluded_title_never_in_results.1 (fun _ _ => 100)
    ⟨[⟨3001, "Dune", 1290, 5⟩], [⟨1290, "Frank Herbert", "USA"⟩]⟩ "Dune" "Sand"
    ⟨"Dune", "Frank Herbert", "USA", 1290, 3001, 5⟩ (by decide)

/-- `insertByScore` preserves descending order. -/
theorem sorted_insertByScore (x : Scored) (l : List Scored)
    (h : l.Pairwise fun s t => t.2 ≤ s.2) :
    (insertByScore x l).Pairwise fun s t => t.2 ≤ s.2 := by
  induction l with
  | nil => simp [insertByScore]
  | cons y ys ih =>
    rcases List.pairwise_cons.mp h with ⟨hy, hys⟩
    unfold insertByScore
    split
    case isTrue hle =>
      refine List.pairwise_cons.mpr ⟨?_, h⟩
      intro t ht
      rcases List.mem_cons.mp ht with rfl | htys
      · exact hle
      · exact le_trans (hy t htys) hle
    case isFalse hlt =>
      refine List.pairwise_cons.mpr ⟨?_, ih hys⟩
      intro t ht
      rcases mem_insertByScore.mp ht with rfl | htys
      · omega
      · exact hy t htys

/-- The Matcher's ranking is sorted by descending score. -/
theorem sorted_rankCandidates (l : List Scored) :
    (rankCandidates l).Pairwise fun s t => t.2 ≤ s.2 := by
  induction l with
  | nil => simp [rankCandidates]
  | cons x xs ih => exact sorted_insertByScore x _ ih

/-- The Matcher output is sorted by descending score. -/
theorem sorted_fuzzy_extract (score : String → String → Nat) (q : String)
    (cands : List String) :
    (fuzzy_extract score q cands).Pairwise fun s t => t.2 ≤ s.2 := by
  unfold fuzzy_extract
  exact sorted_rankCandidates _

/-- Flat-mapping score-homogeneous blocks over a descending score list
yields a list descending under the blocks' score. -/
theorem pairwise_flatMap_of_sorted {α : Type} (g : α → Nat) (f : Scored → List α)
    (l : List Scored) (hs : l.Pairwise fun s t => t.2 ≤ s.2)
    (hg : ∀ st ∈ l, ∀ r ∈ f st, g r = st.2) :
    (l.flatMap f).Pairwise fun r r2 => g r2 ≤ g r := by
  induction l with
  | nil => simp
  | cons st rest ih =>
    rcases List.pairwise_cons.mp hs with ⟨hhead, hrest⟩
    rw [List.flatMap_cons, List.pairwise_append]
    refine ⟨?_, ih hrest (fun st2 h2 => hg st2 (List.mem_cons_of_mem _ h2)), ?_⟩
    · apply List.pairwise_of_forall_mem_list
      intro a ha b hb
      rw [hg st (List.mem_cons_self _ _) a ha, hg st (List.mem_cons_self _ _) b hb]
    · intro a ha b hb
      rcases List.mem_flatMap.mp hb with ⟨st2, hst2, hb2⟩
      rw [hg st (List.mem_cons_self _ _) a ha,
        hg st2 (List.mem_cons_of_mem _ hst2) b hb2]
      exact hhead st2 hst2

/-! ### C7: the similarity searches return exactly the rows above
threshold, in descending score order, without mutation -/

/-- C7: for every catalogue and non-empty query title,
`retrieve_similar_titles` returns exactly the joined rows whose title
differs from the excluded title and scores at least 90 against the query,
in descending score order; `retrieve_similar_authors` returns exactly the
author rows whose name scores at least 75 against the query, in
descending score order.  Both are pure queries of the store (they return
row lists and no store), so neither mutates anything. -/
theorem similar_search_contract
    (score : String → String → Nat) (db : DB)
    (title excluded_title qname : String) (hq : title ≠ "") :
    (∀ r : JoinedRow, r ∈ retrieve_similar_titles score db title excluded_title ↔
      (r ∈ book_join db ∧ r.title ≠ excluded_title ∧ 90 ≤ score title r.title)) ∧
    (retrieve_similar_titles score db title excluded_title).Pairwise
      (fun r r2 => score title r2.title ≤ score title r.title) ∧
    (∀ a : Author, a ∈ retrieve_similar_authors score db qname ↔
      (a ∈ db.authors ∧ 75 ≤ score qname a.name)) ∧
    (retrieve_similar_authors score db qname).Pairwise
      (fun a a2 => score qname a2.name ≤ score qname a.name) := by
  refine ⟨?_, ?_, ?_, ?_⟩
  · intro r
    simp only [retrieve_similar_titles]
    constructor
    · intro hr
      rcases List.mem_flatMap.mp hr with ⟨st, hst, hrblock⟩
      by_cases h90 : 90 ≤ st.2
      · rw [if_pos h90] at hrblock
        rcases List.mem_filter.mp hrblock with ⟨hrdata, hrtitle⟩
        rcases mem_fuzzy_extract.mp hst with ⟨c, hc, rfl⟩
        rcases List.mem_map.mp hc with ⟨row, hrow, hrowc⟩
        rcases List.mem_filter.mp hrow with ⟨hrowdata, hrowne⟩
        have h1 : r.title = c := by simpa using hrtitle
        have h2 : row.title ≠ excluded_title := by simpa using hrowne
        refine ⟨hrdata, ?_, ?_⟩
        · rw [h1, ← hrowc]; exact h2
        · rw [h1]; exact h90
      · rw [if_neg h90] at hrblock
        cases hrblock
    · rintro ⟨hrdata, hrne, hrscore⟩
      apply List.mem_flatMap.mpr
      refine ⟨(r.title, score title r.title), ?_, ?_⟩
      · apply mem_fuzzy_extract.mpr
        exact ⟨r.title,
          List.mem_map.mpr ⟨r, List.mem_filter.mpr ⟨hrdata, by simp [hrne]⟩, rfl⟩, rfl⟩
      · rw [if_pos hrscore]
        exact List.mem_filter.mpr ⟨hrdata, by simp⟩
  · simp only [retrieve_similar_titles]
    apply pairwise_flatMap_of_sorted (fun r : JoinedRow => score title r.title) _ _
      (sorted_fuzzy_extract score title _)
    intro st hst r hr
    by_cases h90 : 90 ≤ st.2
    · rw [if_pos h90] at hr
      rcases List.mem_filter.mp hr with ⟨hrd, ht⟩
      rcases mem_fuzzy_extract.mp hst with ⟨c, hc, rfl⟩
      have h1 : r.title = c := by simpa using ht
      rw [h1]
    · rw [if_neg h90] at hr
      cases hr
  · intro a
    simp only [retrieve_similar_authors]
    constructor
    · intro ha
      rcases List.mem_flatMap.mp ha with ⟨st, hst, hablock⟩
      by_cases h75 : 75 ≤ st.2
      · rw [if_pos h75] at hablock
        rcases List.mem_filter.mp hablock with ⟨hadata, haname⟩
        rcases mem_fuzzy_extract.mp hst with ⟨c, hc, rfl⟩
        have h1 : a.name = c := by simpa using haname
        refine ⟨hadata, ?_⟩
        rw [h1]; exact h75
      · rw [if_neg h75] at hablock
        cases hablock
    · rintro ⟨hadata, hascore⟩
      apply List.mem_flatMap.mpr
      refine ⟨(a.name, score qname a.name), ?_, ?_⟩
      · exact mem_fuzzy_extract.mpr ⟨a.name, List.mem_map.mpr ⟨a, hadata, rfl⟩, rfl⟩
      · rw [if_pos hascore]
        exact List.mem_filter.mpr ⟨hadata, by simp⟩
  · simp only [retrieve_similar_authors]
    apply pairwise_flatMap_of_sorted (fun a : Author => score qname a.name) _ _
      (sorted_fuzzy_extract score qname _)
    intro st hst a ha
    by_cases h75 : 75 ≤ st.2
    · rw [if_pos h75] at ha
      rcases List.mem_filter.mp ha with ⟨had, hn⟩
      rcases mem_fuzzy_extract.mp hst with ⟨c, hc, rfl⟩
      have h1 : a.name = c := by simpa using hn
      rw [h1]
    · rw [if_neg h75] at ha
      cases ha

/-- C7 witness: with an exact-match scorer over a two-book catalogue the
matching joined row is returned. -/
theorem similar_search_contract_witness :
    (⟨"Dune", "Frank Herbert", "USA", 1290, 3001, 5⟩ : JoinedRow) ∈
      retrieve_similar_titles (fun q c => if q == c then 100 else 0)
        ⟨[⟨3001, "Dune", 1290, 5⟩, ⟨3002, "Mars", 1290, 7⟩],
          [⟨1290, "Frank Herbert", "USA"⟩]⟩ "Dune" "" :=
  ((similar_search_contract (fun q c => if q == c then 100 else 0)
      ⟨[⟨3001, "Dune", 1290, 5⟩, ⟨3002, "Mars", 1290, 7⟩],
        [⟨1290, "Frank Herbert", "USA"⟩]⟩ "Dune" "" "x" (by decide)).1
    ⟨"Dune", "Frank Herbert", "USA", 1290, 3001, 5⟩).mpr (by decide)

/-- Rows returned by `retrieve_similar_authors` are rows of the author
table. -/
theorem mem_retrieve_similar_authors {score : String → String → Nat}
    {db : DB} {n : String} {a : Author}
    (h : a ∈ retrieve_similar_authors score db n) : a ∈ db.authors := by
  simp only [retrieve_similar_authors] at h
  rcases List.mem_flatMap.mp h with ⟨st, _, hb⟩
  by_cases h75 : 75 ≤ st.2
  · rw [if_pos h75] at hb
    exact (List.mem_filter.mp hb).1
  · rw [if_neg h75] at hb
    cases hb

/-! ### C9: author-resolution failure aborts Add Book; I1 is never broken -/

/-- C9: if `add_author` signals failure (`None`) the Add Book workflow
stops before the book insert, leaving the store untouched; and in every
run of `add_book` each book row of the resulting store — in particular
any newly written one — references an existing author id, given the UI
guarantee that a chosen existing-author index is in range. -/
theorem add_book_aborts_on_author_failure_and_preserves_i1 :
    (∀ (score : String → String → Nat) (db : DB) (t : String) (ca : Bool) (bid : Int)
        (an : String) (ue : Bool) (ai : Nat) (ac : String) (aid : Int) (q : Int)
        (acr ba : Bool),
      (add_author score db an ue ai ac aid acr).2 = none →
      add_book score db t ca bid an ue ai ac aid q acr ba = (db, .aborted) ∨
      add_book score db t ca bid an ue ai ac aid q acr ba = (db, .addAuthorFailed)) ∧
    (∀ (score : String → String → Nat) (db : DB) (t : String) (ca : Bool) (bid : Int)
        (an : String) (ue : Bool) (ai : Nat) (ac : String) (aid : Int) (q : Int)
        (acr ba : Bool),
      (ue = true → retrieve_similar_authors score db an ≠ [] →
        ai < (retrieve_similar_authors score db an).length) →
      I1 db →
      I1 (add_book score db t ca bid an ue ai ac aid q acr ba).1) := by
  constructor
  · intro score db t ca bid an ue ai ac aid q acr ba haa
    by_cases habort : retrieve_similar_titles score db t "" ≠ [] ∧ ¬ca = true
    · left
      simp only [add_book, if_pos habort]
    · right
      simp only [add_book, if_neg habort]
      by_cases hex : retrieve_similar_authors score db an ≠ [] ∧ ue = true
      · simp only [add_author, if_pos hex] at haa
        cases haa
      · simp only [add_author, if_neg hex] at haa ⊢
        cases acr with
        | true => cases haa
        | false => simp
  · intro score db t ca bid an ue ai ac aid q acr ba hidx hI1
    by_cases habort : retrieve_similar_titles score db t "" ≠ [] ∧ ¬ca = true
    · simp only [add_book, if_pos habort]
      exact hI1
    · simp only [add_book, if_neg habort]
      by_cases hex : retrieve_similar_authors score db an ≠ [] ∧ ue = true
      · simp only [add_author, if_pos hex]
        cases ba with
        | false => exact hI1
        | true =>
          intro b' hb'
          rcases List.mem_append.mp (show b' ∈ db.books ++
              [⟨bid, t, ((retrieve_similar_authors score db an).getD ai
                ⟨0, "", ""⟩).id, q⟩] from hb') with hmem | hnb
          · exact hI1 b' hmem
          · rcases List.mem_singleton.mp hnb with rfl
            have hlen : ai < (retrieve_similar_authors score db an).length :=
              hidx hex.2 hex.1
            refine ⟨(retrieve_similar_authors score db an).getD ai ⟨0, "", ""⟩,
              ?_, rfl⟩
            apply mem_retrieve_similar_authors
            rw [List.getD_eq_getElem _ _ hlen]
            exact List.getElem_mem hlen
      · simp only [add_author, if_neg hex]
        cases acr with
        | false => exact hI1
        | true =>
          have hI1a : I1 (insertAuthor db ⟨aid, an, ac⟩) := by
            intro b' hb'
            rcases hI1 b' hb' with ⟨a', ha', haid⟩
            exact ⟨a', by simp only [insertAuthor, List.mem_append]; exact Or.inl ha',
              haid⟩
          cases ba with
          | false => exact hI1a
          | true =>
            intro b' hb'
            rcases List.mem_append.mp (show b' ∈ (insertAuthor db ⟨aid, an, ac⟩).books ++
                [⟨bid, t, aid, q⟩] from hb') with hmem | hnb
            · exact hI1a b' hmem
            · rcases List.mem_singleton.mp hnb with rfl
              exact ⟨⟨aid, an, ac⟩, by simp [insertBook, insertAuthor], rfl⟩

/-- C9 witness: a failed author creation leaves the store untouched and
reports the abort, and I1 holds after a completed add. -/
theorem add_book_aborts_on_author_failure_and_preserves_i1_witness :
    (add_book (fun _ _ => 0) initialDB "New Book" true 3999 "New Author" false 0
        "Nowhere" 9999 3 false true =
      (initialDB, .aborted) ∨
    add_book (fun _ _ => 0) initialDB "New Book" true 3999 "New Author" false 0
        "Nowhere" 9999 3 false true =
      (initialDB, .addAuthorFailed)) ∧
    I1 (add_book (fun _ _ => 0) initialDB "New Book" true 3999 "New Author" false 0
        "Nowhere" 9999 3 true true).1 :=
  And.intro
    (add_book_aborts_on_author_failure_and_preserves_i1.1 (fun _ _ => 0) initialDB
      "New Book" true 3999 "New Author" false 0 "Nowhere" 9999 3 false true
      (by decide))
    (add_book_aborts_on_author_failure_and_preserves_i1.2 (fun _ _ => 0) initialDB
      "New Book" true 3999 "New Author" false 0 "Nowhere" 9999 3 true true
      (by decide) (by decide))

/-! ### Lemmas for the I2 preservation argument -/

/-- `UPDATE book SET authorID` does not change the id column. -/
theorem map_id_update (books : List Book) (nid bid : Int) :
    (books.map fun b =>
      if b.id == bid then { b with authorID := nid } else b).map Book.id =
      books.map Book.id := by
  rw [List.map_map]
  apply List.map_congr_left
  intro b _
  show Book.id (if (b.id == bid) = true
    then { b with authorID := nid } else b) = b.id
  by_cases h : (b.id == bid) = true
  · rw [if_pos h]
  · rw [if_neg h]

/-- A row not targeted by the author update survives unchanged. -/
theorem mem_updateBookAuthor_of_ne {db : DB} {nid bid : Int} {wb : Book}
    (hwb : wb ∈ db.books) (hne : wb.id ≠ bid) :
    wb ∈ (updateBookAuthor db nid bid).books := by
  have h := List.mem_map_of_mem
    (fun b => if b.id == bid then { b with authorID := nid } else b) hwb
  simpa [updateBookAuthor, hne] using h

/-- The targeted row appears with its author reassigned. -/
theorem mem_updateBookAuthor_self {db : DB} {nid : Int} {b : Book}
    (hb : b ∈ db.books) :
    ({ b with authorID := nid }) ∈ (updateBookAuthor db nid b.id).books := by
  have h := List.mem_map_of_mem
    (fun x => if x.id == b.id then { x with authorID := nid } else x) hb
  simpa [updateBookAuthor] using h

/-- A row referencing a different author than `b` has a different id. -/
theorem ref_away_id_ne {db : DB} (hwf : (db.books.map Book.id).Nodup)
    {b wb : Book} (hb : b ∈ db.books) (hwb : wb ∈ db.books)
    (hne : wb.authorID ≠ b.authorID) : wb.id ≠ b.id := by
  intro h
  exact hne (congrArg Book.authorID (book_eq_of_id_eq hwf hwb hb h))

/-- When the orphan check is false, the author keeps a referencing row
other than `b`. -/
theorem exists_other_ref {db : DB} (hwf : (db.books.map Book.id).Nodup)
    {A : Int} (hno : ¬ update_creates_orphan db A = true)
    {b : Book} (hb : b ∈ db.books) :
    ∃ wb ∈ db.books, wb.authorID = A ∧ wb.id ≠ b.id := by
  have hlen : 2 ≤ (db.books.filter fun x => x.authorID == A).length := by
    simp only [update_creates_orphan, decide_eq_true_eq] at hno
    omega
  have hbooks : db.books.Nodup := List.Nodup.of_map _ hwf
  have hnodup : (db.books.filter fun x => x.authorID == A).Nodup :=
    hbooks.filter _
  rcases exists_mem_ne_of_two_le hnodup hlen b with ⟨wb, hwbf, hwbne⟩
  rcases List.mem_filter.mp hwbf with ⟨hwbmem, hwbA⟩
  refine ⟨wb, hwbmem, by simpa using hwbA, ?_⟩
  intro hid
  exact hwbne (book_eq_of_id_eq hwf hwbmem hb hid)

/-- Core of the I2 argument for a reassignment: after `b` is reassigned
to `new_id`, an author keeps a referencing row provided it either had one
before (and is not the author `b` is leaving unless that author keeps a
second reference) or is the reassignment target. -/
theorem i2_reassign_update (db : DB) (b : Book) (new_id : Int)
    (hwf : (db.books.map Book.id).Nodup) (hb : b ∈ db.books)
    (auth : Author)
    (hwit : (∃ wb ∈ db.books, wb.authorID = auth.id) ∨ auth.id = new_id)
    (hcond : auth.id ≠ b.authorID ∨ ¬ update_creates_orphan db b.authorID = true) :
    ∃ wb ∈ (updateBookAuthor db new_id b.id).books, wb.authorID = auth.id := by
  rcases hwit with ⟨wb, hwb, hwba⟩ | hnew
  · by_cases hA : auth.id = b.authorID
    · rcases hcond with hne | hno
      · exact absurd hA hne
      · rcases exists_other_ref hwf hno hb with ⟨wb2, hwb2, hwb2A, hwb2ne⟩
        exact ⟨wb2, mem_updateBookAuthor_of_ne hwb2 hwb2ne, by rw [hwb2A, hA]⟩
    · have hne : wb.id ≠ b.id :=
        ref_away_id_ne hwf hb hwb (by rw [hwba]; exact hA)
      exact ⟨wb, mem_updateBookAuthor_of_ne hwb hne, hwba⟩
  · exact ⟨{ b with authorID := new_id }, mem_updateBookAuthor_self hb, hnew.symm⟩

/-- Filtering preserves duplicate-freedom of a mapped column. -/
theorem nodup_map_filter (f : Book → Int) (p : Book → Bool) (l : List Book)
    (h : (l.map f).Nodup) : ((l.filter p).map f).Nodup :=
  List.Nodup.sublist (List.Sublist.map f (List.filter_sublist l)) h

/-- Filtering preserves duplicate-freedom of the author id column. -/
theorem nodup_map_filter_author (f : Author → Int) (p : Author → Bool)
    (l : List Author) (h : (l.map f).Nodup) : ((l.filter p).map f).Nodup :=
  List.Nodup.sublist (List.Sublist.map f (List.filter_sublist l)) h

/-- Appending a row with a fresh id keeps the id column duplicate-free. -/
theorem nodup_map_append_book (l : List Book) (x : Book)
    (h : (l.map Book.id).Nodup) (hx : ∀ y ∈ l, y.id ≠ x.id) :
    ((l ++ [x]).map Book.id).Nodup := by
  rw [List.map_append]
  rw [List.nodup_append]
  refine ⟨h, by simp, ?_⟩
  intro v hv
  rcases List.mem_map.mp hv with ⟨y, hy, rfl⟩
  simpa using fun hcontra => hx y hy (by simpa using hcontra)

/-- Appending an author row with a fresh id keeps ids duplicate-free. -/
theorem nodup_map_append_author (l : List Author) (x : Author)
    (h : (l.map Author.id).Nodup) (hx : ∀ y ∈ l, y.id ≠ x.id) :
    ((l ++ [x]).map Author.id).Nodup := by
  rw [List.map_append]
  rw [List.nodup_append]
  refine ⟨h, by simp, ?_⟩
  intro v hv
  rcases List.mem_map.mp hv with ⟨y, hy, rfl⟩
  simpa using fun hcontra => hx y hy (by simpa using hcontra)

/-- WF and I2 are preserved by a completed, store-successful reassignment
to an existing author, given the call context established by
`update_book`'s fetch (the book exists and `a` is its author row). -/
theorem preserve_updateAuthorExisting (db : DB) (b : Book) (a : Author)
    (nid : Int) (cont : Bool) (hwf : WF db) (h2 : I2 db)
    (hb : b ∈ db.books) (haid : a.id = b.authorID) :
    WF (update_author_id_existing db b.id a.id nid cont true true).db ∧
    I2 (update_author_id_existing db b.id a.id nid cont true true).db := by
  by_cases ho : update_creates_orphan db a.id = true
  · by_cases hc : cont = true
    · have hred : update_author_id_existing db b.id a.id nid cont true true =
          ⟨deleteAuthorRow (updateBookAuthor db nid b.id) a.id,
            .successOrphanRemoved, true⟩ := by
        simp [update_author_id_existing, ho, hc]
      rw [hred]
      refine ⟨⟨?_, ?_⟩, ?_⟩
      · have h1 : (deleteAuthorRow (updateBookAuthor db nid b.id) a.id).books.map
            Book.id = db.books.map Book.id := map_id_update db.books nid b.id
        rw [h1]
        exact hwf.1
      · exact nodup_map_filter_author _ _ _ hwf.2
      · intro auth hauth
        have hauth2 : auth ∈ db.authors.filter (fun x => x.id != a.id) := hauth
        rcases List.mem_filter.mp hauth2 with ⟨hmem, hne0⟩
        have hne : auth.id ≠ a.id := by simpa using hne0
        exact i2_reassign_update db b nid hwf.1 hb auth (Or.inl (h2 auth hmem))
          (Or.inl (by rw [← haid]; exact hne))
    · have hred : update_author_id_existing db b.id a.id nid cont true true =
          ⟨db, .aborted, false⟩ := by
        simp [update_author_id_existing, ho, hc]
      rw [hred]
      exact ⟨hwf, h2⟩
  · have hred : update_author_id_existing db b.id a.id nid cont true true =
        ⟨updateBookAuthor db nid b.id, .success, false⟩ := by
      simp [update_author_id_existing, ho]
    rw [hred]
    refine ⟨⟨?_, hwf.2⟩, ?_⟩
    · have h1 : (updateBookAuthor db nid b.id).books.map Book.id =
          db.books.map Book.id := map_id_update db.books nid b.id
      rw [h1]
      exact hwf.1
    · intro auth hauth
      have hmem : auth ∈ db.authors := hauth
      exact i2_reassign_update db b nid hwf.1 hb auth (Or.inl (h2 auth hmem))
        (Or.inr (by rw [← haid]; exact ho))

/-- WF and I2 are preserved by a completed, store-successful reassignment
to a new or reused author (`update_author_id` case 2), given the fetch
context and the UI freshness guarantee on a newly created author id. -/
theorem preserve_updateAuthorNew (score : String → String → Nat) (db : DB)
    (b : Book) (a : Author) (cont : Bool) (an : String) (ue : Bool) (ai : Nat)
    (ac : String) (aid : Int) (hwf : WF db) (h2 : I2 db)
    (hb : b ∈ db.books) (haid : a.id = b.authorID)
    (hfreshA : retrieve_similar_authors score db an = [] ∨ ue = false →
      check_id_exists db false aid = false) :
    WF (update_author_id_new score db b.id a.id cont an ue ai ac aid
      true true true).db ∧
    I2 (update_author_id_new score db b.id a.id cont an ue ai ac aid
      true true true).db := by
  by_cases hex : retrieve_similar_authors score db an ≠ [] ∧ ue = true
  · have hred : update_author_id_new score db b.id a.id cont an ue ai ac aid
        true true true =
        update_author_id_existing db b.id a.id
          ((retrieve_similar_authors score db an).getD ai ⟨0, "", ""⟩).id
          cont true true := by
      simp [update_author_id_new, update_author_id_existing, add_author, hex]
    rw [hred]
    exact preserve_updateAuthorExisting db b a _ cont hwf h2 hb haid
  · have hcreate : retrieve_similar_authors score db an = [] ∨ ue = false := by
      by_cases hsim : retrieve_similar_authors score db an = []
      · exact Or.inl hsim
      · cases hue : ue with
        | false => exact Or.inr rfl
        | true => exact absurd ⟨hsim, hue⟩ hex
    have hfresh2 : ∀ y ∈ db.authors, y.id ≠ aid :=
      check_author_id_exists_false (hfreshA hcreate)
    have hwfa : ((db.authors ++ [(⟨aid, an, ac⟩ : Author)]).map Author.id).Nodup :=
      nodup_map_append_author _ _ hwf.2 hfresh2
    by_cases ho : update_creates_orphan db a.id = true
    · by_cases hc : cont = true
      · have hred : update_author_id_new score db b.id a.id cont an ue ai ac aid
            true true true =
            ⟨deleteAuthorRow
              (updateBookAuthor (insertAuthor db ⟨aid, an, ac⟩) aid b.id) a.id,
              .successOrphanRemoved, true⟩ := by
          simp [update_author_id_new, add_author, hex, ho, hc]
        rw [hred]
        refine ⟨⟨?_, ?_⟩, ?_⟩
        · have h1 : (deleteAuthorRow
              (updateBookAuthor (insertAuthor db ⟨aid, an, ac⟩) aid b.id)
              a.id).books.map Book.id = db.books.map Book.id :=
            map_id_update db.books aid b.id
          rw [h1]
          exact hwf.1
        · exact nodup_map_filter_author _ _ _ hwfa
        · intro auth hauth
          have hauth2 : auth ∈ (db.authors ++ [(⟨aid, an, ac⟩ : Author)]).filter
              (fun x => x.id != a.id) := hauth
          rcases List.mem_filter.mp hauth2 with ⟨hmem1, hne0⟩
          have hne : auth.id ≠ a.id := by simpa using hne0
          have hwit : (∃ wb ∈ db.books, wb.authorID = auth.id) ∨ auth.id = aid := by
            rcases List.mem_append.mp hmem1 with hmem | hna
            · exact Or.inl (h2 auth hmem)
            · rcases List.mem_singleton.mp hna with rfl
              exact Or.inr rfl
          exact i2_reassign_update db b aid hwf.1 hb auth hwit
            (Or.inl (by rw [← haid]; exact hne))
      · have hred : update_author_id_new score db b.id a.id cont an ue ai ac aid
            true true true = ⟨db, .aborted, false⟩ := by
          simp [update_author_id_new, ho, hc]
        rw [hred]
        exact ⟨hwf, h2⟩
    · have hred : update_author_id_new score db b.id a.id cont an ue ai ac aid
          true true true =
          ⟨updateBookAuthor (insertAuthor db ⟨aid, an, ac⟩) aid b.id,
            .success, false⟩ := by
        simp [update_author_id_new, add_author, hex, ho]
      rw [hred]
      refine ⟨⟨?_, hwfa⟩, ?_⟩
      · have h1 : (updateBookAuthor (insertAuthor db ⟨aid, an, ac⟩) aid
            b.id).books.map Book.id = db.books.map Book.id :=
          map_id_update db.books aid b.id
        rw [h1]
        exact hwf.1
      · intro auth hauth
        have hmem1 : auth ∈ db.authors ++ [(⟨aid, an, ac⟩ : Author)] := hauth
        have hwit : (∃ wb ∈ db.books, wb.authorID = auth.id) ∨ auth.id = aid := by
          rcases List.mem_append.mp hmem1 with hmem | hna
          · exact Or.inl (h2 auth hmem)
          · rcases List.mem_singleton.mp hna with rfl
            exact Or.inr rfl
        exact i2_reassign_update db b aid hwf.1 hb auth hwit
          (Or.inr (by rw [← haid]; exact ho))

/-- WF and I2 are preserved by a completed, store-successful
`delete_book`. -/
theorem preserve_deleteBook (db : DB) (tid : Int) (cd cdel : Bool)
    (hwf : WF db) (h2 : I2 db) :
    WF (delete_book db tid cd cdel true true).db ∧
    I2 (delete_book db tid cd cdel true true).db := by
  rcases hf : fetch_book_join db tid with _ | ⟨b, a⟩
  · have hred : delete_book db tid cd cdel true true = ⟨db, .fetchFailed, false⟩ := by
      unfold delete_book
      rw [hf]
    rw [hred]
    exact ⟨hwf, h2⟩
  · rcases fetch_book_join_some hf with ⟨hb, hbid, ha, haid⟩
    by_cases hcd : cd = true
    · by_cases ho : update_creates_orphan db a.id = true
      · by_cases hcdel : cdel = true
        · have hred : delete_book db tid cd cdel true true =
              ⟨deleteAuthorRow (deleteBookRow db b.id) a.id,
                .successOrphanRemoved, true⟩ := by
            unfold delete_book
            rw [hf]
            simp [hcd, ho, hcdel]
          rw [hred]
          refine ⟨⟨nodup_map_filter _ _ _ hwf.1, nodup_map_filter_author _ _ _ hwf.2⟩, ?_⟩
          intro auth hauth
          have hauth2 : auth ∈ db.authors.filter (fun x => x.id != a.id) := hauth
          rcases List.mem_filter.mp hauth2 with ⟨hmem, hne0⟩
          have hne : auth.id ≠ a.id := by simpa using hne0
          rcases h2 auth hmem with ⟨wb, hwb, hwba⟩
          have hwbne : wb.id ≠ b.id :=
            ref_away_id_ne hwf.1 hb hwb (by rw [hwba, ← haid]; exact hne)
          exact ⟨wb, List.mem_filter.mpr ⟨hwb, by simpa using hwbne⟩, hwba⟩
        · have hred : delete_book db tid cd cdel true true = ⟨db, .aborted, false⟩ := by
            unfold delete_book
            rw [hf]
            simp [hcd, ho, hcdel]
          rw [hred]
          exact ⟨hwf, h2⟩
      · have hred : delete_book db tid cd cdel true true =
            ⟨deleteBookRow db b.id, .success, false⟩ := by
          unfold delete_book
          rw [hf]
          simp [hcd, ho]
        rw [hred]
        refine ⟨⟨nodup_map_filter _ _ _ hwf.1, hwf.2⟩, ?_⟩
        intro auth hauth
        have hmem : auth ∈ db.authors := hauth
        by_cases hA : auth.id = a.id
        · have hno : ¬ update_creates_orphan db b.authorID = true := by
            rw [← haid]
            exact ho
          rcases exists_other_ref hwf.1 hno hb with ⟨wb, hwb, hwbA, hwbne⟩
          refine ⟨wb, List.mem_filter.mpr ⟨hwb, by simpa using hwbne⟩, ?_⟩
          rw [hwbA, ← haid, hA]
        · rcases h2 auth hmem with ⟨wb, hwb, hwba⟩
          have hwbne : wb.id ≠ b.id :=
            ref_away_id_ne hwf.1 hb hwb (by rw [hwba, ← haid]; exact hA)
          exact ⟨wb, List.mem_filter.mpr ⟨hwb, by simpa using hwbne⟩, hwba⟩
    · have hred : delete_book db tid cd cdel true true = ⟨db, .aborted, false⟩ := by
        unfold delete_book
        rw [hf]
        simp [hcd]
      rw [hred]
      exact ⟨hwf, h2⟩

/-- WF and I2 are preserved by a completed, store-successful `add_book`,
given the UI freshness guarantees on the new ids. -/
theorem preserve_addBook (score : String → String → Nat) (db : DB) (t : String)
    (ca : Bool) (bid : Int) (an : String) (ue : Bool) (ai : Nat) (ac : String)
    (aid : Int) (q : Int) (hwf : WF db) (h2 : I2 db)
    (hfreshB : check_id_exists db true bid = false)
    (hfreshA : retrieve_similar_authors score db an = [] ∨ ue = false →
      check_id_exists db false aid = false) :
    WF (add_book score db t ca bid an ue ai ac aid q true true).1 ∧
    I2 (add_book score db t ca bid an ue ai ac aid q true true).1 := by
  have hfb : ∀ y ∈ db.books, y.id ≠ bid := check_book_id_exists_false hfreshB
  by_cases habort : retrieve_similar_titles score db t "" ≠ [] ∧ ¬ca = true
  · have hred : add_book score db t ca bid an ue ai ac aid q true true =
        (db, .aborted) := by
      simp [add_book, habort]
    rw [hred]
    exact ⟨hwf, h2⟩
  · by_cases hex : retrieve_similar_authors score db an ≠ [] ∧ ue = true
    · have hred : add_book score db t ca bid an ue ai ac aid q true true =
          (insertBook db ⟨bid, t,
            ((retrieve_similar_authors score db an).getD ai ⟨0, "", ""⟩).id, q⟩,
            .success) := by
        simp only [add_book]
        rw [if_neg habort]
        simp [add_author, hex]
      rw [hred]
      refine ⟨⟨nodup_map_append_book _ _ hwf.1 hfb, hwf.2⟩, ?_⟩
      intro auth hauth
      rcases h2 auth hauth with ⟨wb, hwb, hwba⟩
      exact ⟨wb, List.mem_append.mpr (Or.inl hwb), hwba⟩
    · have hcreate : retrieve_similar_authors score db an = [] ∨ ue = false := by
        by_cases hsim : retrieve_similar_authors score db an = []
        · exact Or.inl hsim
        · cases hue : ue with
          | false => exact Or.inr rfl
          | true => exact absurd ⟨hsim, hue⟩ hex
      have hfresh2 : ∀ y ∈ db.authors, y.id ≠ aid :=
        check_author_id_exists_false (hfreshA hcreate)
      have hred : add_book score db t ca bid an ue ai ac aid q true true =
          (insertBook (insertAuthor db ⟨aid, an, ac⟩) ⟨bid, t, aid, q⟩,
            .success) := by
        simp only [add_book]
        rw [if_neg habort]
        simp [add_author, hex]
      rw [hred]
      refine ⟨⟨nodup_map_append_book _ _ hwf.1 hfb,
        nodup_map_append_author _ _ hwf.2 hfresh2⟩, ?_⟩
      intro auth hauth
      have hmem1 : auth ∈ db.authors ++ [(⟨aid, an, ac⟩ : Author)] := hauth
      rcases List.mem_append.mp hmem1 with hmem | hna
      · rcases h2 auth hmem with ⟨wb, hwb, hwba⟩
        exact ⟨wb, List.mem_append.mpr (Or.inl hwb), hwba⟩
      · rcases List.mem_singleton.mp hna with rfl
        exact ⟨⟨bid, t, aid, q⟩, List.mem_append.mpr (Or.inr (by simp)), rfl⟩

/-- One completed, store-successful operation preserves WF and I2 when
its UI-validated input guarantees hold. -/
theorem applyOp_preserves (score : String → String → Nat) (db : DB) (op : Op)
    (hwf : WF db) (h2 : I2 db) (hv : op.valid score db) :
    WF (applyOp score db op) ∧ I2 (applyOp score db op) := by
  cases op with
  | addBook t ca bid an ue ai ac aid q =>
    exact preserve_addBook score db t ca bid an ue ai ac aid q hwf h2 hv.1 hv.2.2
  | reassignExisting bid nid cont =>
    rcases hf : fetch_book_join db bid with _ | ⟨b, a⟩ <;> simp only [applyOp, hf]
    · exact ⟨hwf, h2⟩
    · rcases fetch_book_join_some hf with ⟨hb, hbid, ha, haid⟩
      exact preserve_updateAuthorExisting db b a nid cont hwf h2 hb haid
  | reassignNew bid cont an ue ai ac aid =>
    rcases hf : fetch_book_join db bid with _ | ⟨b, a⟩ <;> simp only [applyOp, hf]
    · exact ⟨hwf, h2⟩
    · rcases fetch_book_join_some hf with ⟨hb, hbid, ha, haid⟩
      exact preserve_updateAuthorNew score db b a cont an ue ai ac aid hwf h2
        hb haid hv.2
  | deleteBook bid cd cdel =>
    exact preserve_deleteBook db bid cd cdel hwf h2

/-- A prefix of a valid operation sequence is valid. -/
theorem validSeq_append_left (score : String → String → Nat) :
    ∀ (l1 l2 : List Op) (db : DB),
      validSeq score db (l1 ++ l2) → validSeq score db l1 := by
  intro l1
  induction l1 with
  | nil =>
    intro l2 db _
    trivial
  | cons op rest ih =>
    intro l2 db h
    rcases h with ⟨h1, h2⟩
    exact ⟨h1, ih l2 _ h2⟩

/-- Running a valid sequence of completed, store-successful operations
preserves WF and I2. -/
theorem runOps_preserves (score : String → String → Nat) :
    ∀ (ops : List Op) (db : DB), WF db → I2 db → validSeq score db ops →
      WF (runOps score db ops) ∧ I2 (runOps score db ops) := by
  intro ops
  induction ops with
  | nil =>
    intro db hwf h2 _
    exact ⟨hwf, h2⟩
  | cons op rest ih =>
    intro db hwf h2 hv
    rcases hv with ⟨hv1, hv2⟩
    rcases applyOp_preserves score db op hwf h2 hv1 with ⟨hwf2, h22⟩
    exact ih _ hwf2 h22 hv2

/-! ### C1: I2 is maintained after every completed operation of a run -/

/-- C1: for every sequence of completed (non-aborted, store-successful)
Add Book / author-reassignment / Delete Book operations whose interactive
inputs satisfy the UI validation guarantees, started from a store with
unique primary keys which satisfies I2, after each operation of the run
(i.e. after every prefix) every author row is referenced by at least one
book row.  Aborted operations leave the store untouched, so they are
covered a fortiori. -/
theorem i2_preserved_after_each_operation (score : String → String → Nat)
    (db : DB) (ops l1 l2 : List Op) (hsplit : ops = l1 ++ l2)
    (hwf : WF db) (h2 : I2 db) (hv : validSeq score db ops) :
    I2 (runOps score db l1) := by
  subst hsplit
  exact (runOps_preserves score l1 db hwf h2
    (validSeq_append_left score l1 l2 db hv)).2

/-- C1 witness: on the seeded store, deleting book 3001 (which cascades
author 1290) and then adding a fresh book with a fresh author keeps
every author row referenced. -/
theorem i2_preserved_after_each_operation_witness :
    I2 (runOps (fun _ _ => 0) initialDB
      [Op.deleteBook 3001 true true,
       Op.addBook "New Book" true 3999 "Anon" false 0 "Nowhere" 9999 4]) :=
  i2_preserved_after_each_operation (fun _ _ => 0) initialDB
    [Op.deleteBook 3001 true true,
     Op.addBook "New Book" true 3999 "Anon" false 0 "Nowhere" 9999 4]
    [Op.deleteBook 3001 true true,
     Op.addBook "New Book" true 3999 "Anon" false 0 "Nowhere" 9999 4]
    [] rfl (by decide) (by decide) (by decide)
